import Mathlib

/-!
Verification development for the `python-tetris` repository.

The Python modules `events.py`, `states.py` and `game.py` are shallowly
embedded below: each Python class becomes a Lean structure, each method a
pure function on that structure (mutation becomes returning an updated
record), and the `random.randrange` draw in `MasterTetris.step` becomes an
explicit numeric argument.  Elapsed time (`datetime.timedelta`) is modelled
by exact rational seconds.

A load-bearing fact about this snapshot of the source: `events.py` gives
`EventedObject` a single dispatcher attribute named `changed_event`, while
`game.py` still emits through `self.event` (and `b.event`) everywhere — a
rename left half-done, so every such access raises `AttributeError` at run
time (the game cannot survive a single piece movement).  Two models are
therefore developed side by side:

* functions suffixed `Py` (`rotate_leftPy`, `clear_rowsPy`, `stepPy`, …)
  are faithful to the source as staged: a `PyRet.exn` outcome is the
  `AttributeError` escaping the method, and the state returned with it is
  the object state at the moment it escapes — partial commits included;
* the unsuffixed game-logic functions (`rotate_left`, `clear_rows`,
  `step`, …) are the event-free idealization: the semantics described by
  the modules' own docstrings and by the methods' validate-then-commit
  structure, with the emissions dropped.  The two models coincide on every
  path that performs no emission (blocked moves, `is_clear`, position
  queries, sub-threshold `step` ticks, row scans that clear nothing).

The event dispatcher itself (`EventDispatcher`, whose class is intact in
the staged source) is modelled separately, with the effect a handler may
have on the subscription list made explicit.
-/

namespace Tetris

/-! ## events.py : EventDispatcher

`handlers` is the ordered list of subscribed handlers (identified by
numeric ids) and `supress_count` the suppression counter (spelling from the
source).  A handler body is arbitrary Python; the only part of it that can
interact with the dispatcher is how it rewrites the handler list, which we
model as an environment `act : Nat → List Nat → List Nat` giving each
handler's effect on the list when it is invoked. -/

structure EventDispatcher where
  handlers : List Nat
  supress_count : Nat
deriving DecidableEq

/-- `event += other`: idempotent append (`if other not in ... : append`). -/
def EventDispatcher.iadd (d : EventDispatcher) (other : Nat) : EventDispatcher :=
  if other ∈ d.handlers then d else { d with handlers := d.handlers ++ [other] }

/-- `event -= other`: `list.remove`, deleting the first occurrence.
(Python raises `ValueError` when absent; no claim touches that case.) -/
def EventDispatcher.isub (d : EventDispatcher) (other : Nat) : EventDispatcher :=
  { d with handlers := d.handlers.erase other }

/-- Python's `for h in self.__handlers: h(e)` iterates the LIVE list by
index: each iteration checks the current index against the current length
of the (possibly mutated) list, yields the element there, and invokes it.
`fuel` bounds the number of iterations (the Python loop may diverge if
handlers keep appending); every theorem below supplies enough fuel.
Returns (final handler list, log of invoked handler ids in order). -/
def callFrom (act : Nat → List Nat → List Nat) :
    Nat → Nat → List Nat → List Nat × List Nat
  | 0, _, hs => (hs, [])
  | fuel + 1, i, hs =>
    if h : i < hs.length then
      let hid := hs.get ⟨i, h⟩
      let rest := callFrom act fuel (i + 1) (act hid hs)
      (rest.1, hid :: rest.2)
    else (hs, [])

/-- `EventDispatcher.__call__(e)`: no handler runs while suppressed,
otherwise the live-list loop above runs from index 0. -/
def EventDispatcher.call (d : EventDispatcher) (act : Nat → List Nat → List Nat)
    (fuel : Nat) : List Nat × List Nat :=
  if d.supress_count > 0 then (d.handlers, [])
  else callFrom act fuel 0 d.handlers

/-! ## game.py : Movable.position

`Movable.position` translates the parent's position (origin `(0,0)` when
there is no parent, or the parent has no `position` attribute) by the
movable's own local offset.  A concrete parent chain is represented by the
list of local offsets from the queried entity up to the root; the root's
missing/position-less parent is the `[]` case. -/

def translate_position (origin l : Int × Int) : Int × Int :=
  (origin.1 + l.1, origin.2 + l.2)

def chainPosition : List (Int × Int) → Int × Int
  | [] => (0, 0)
  | l :: ps => translate_position (chainPosition ps) l

/-! ## game.py : Block, Grid, Polyomino -/

structure Block where
  lpos : Int × Int
  color : Nat
deriving DecidableEq

/-- A game grid.  The Python storage is a `width`-list of `height`-lists;
`cells` is that storage as a function.  All reads performed by the source
(`is_clear`, `clear_rows`) are bounds-checked into `[0,width) × [0,height)`;
the only unguarded accesses are the writes of `add_polyomino`, where Python
list indexing wraps a negative index `i ∈ [-len, 0)` to `len + i` (see
`wrapIdx`). -/
structure Grid where
  width : Nat
  height : Nat
  cells : Int → Int → Option Block

/-- `Grid.is_clear(position)`. -/
def Grid.is_clear (g : Grid) (p : Int × Int) : Bool :=
  if p.2 < 0 then true
  else if p.1 < 0 ∨ (g.width : Int) ≤ p.1 ∨ (g.height : Int) ≤ p.2 then false
  else (g.cells p.1 p.2).isNone

structure Polyomino where
  lpos : Int × Int
  blocks : List Block
deriving DecidableEq

/-- `Polyomino.__check_locations(locations)`: with no parent (or a parent
without `is_clear`) every location passes; otherwise every candidate local
offset, translated by the polyomino's local position, must be clear on the
parent grid.  The Python loop returns `False` at the first blocked cell. -/
def check_locations (parent : Option Grid) (pos : Int × Int)
    (locations : List (Int × Int)) : Bool :=
  match parent with
  | none => true
  | some g => locations.all fun l => g.is_clear (pos.1 + l.1, pos.2 + l.2)

/-- Event-free idealization of `Polyomino.rotate_left()`: candidate offsets
`(x,y) ↦ (-y,x)`, checked before any block is written; on success every
block's local offset is committed, on failure the polyomino is returned
untouched with `False`.  This is the semantics the method's docstring and
validate-then-commit structure intend; against the staged `events.py` the
success path instead commits only the first block and raises — see
`Polyomino.rotate_leftPy`.  The blocked path is identical in both models. -/
def Polyomino.rotate_left (p : Polyomino) (parent : Option Grid) :
    Bool × Polyomino :=
  let nlp := p.blocks.map fun b => ((-b.lpos.2, b.lpos.1), b)
  if check_locations parent p.lpos (nlp.map Prod.fst) then
    (true, { p with blocks := nlp.map fun q => { q.2 with lpos := q.1 } })
  else (false, p)

/-- Event-free idealization of `Polyomino.rotate_right()`: candidate
offsets `(x,y) ↦ (y,-x)`; same caveat as `rotate_left` — the staged source
raises on the success path, see `Polyomino.rotate_rightPy`. -/
def Polyomino.rotate_right (p : Polyomino) (parent : Option Grid) :
    Bool × Polyomino :=
  let nlp := p.blocks.map fun b => ((b.lpos.2, -b.lpos.1), b)
  if check_locations parent p.lpos (nlp.map Prod.fst) then
    (true, { p with blocks := nlp.map fun q => { q.2 with lpos := q.1 } })
  else (false, p)

/-- Event-free idealization of `Polyomino.move_delta(delta)`: candidate
offsets are every block's offset shifted by `delta`; on success only the
polyomino's own local offset moves (the blocks stay relative to it).
Against the staged `events.py` the success path commits the piece offset
and then raises in the setter — see `Polyomino.move_deltaPy`; the blocked
path is identical in both models. -/
def Polyomino.move_delta (p : Polyomino) (parent : Option Grid)
    (delta : Int × Int) : Bool × Polyomino :=
  let nlp := p.blocks.map fun b => ((b.lpos.1 + delta.1, b.lpos.2 + delta.2), b)
  if check_locations parent p.lpos (nlp.map Prod.fst) then
    (true, { p with lpos := (p.lpos.1 + delta.1, p.lpos.2 + delta.2) })
  else (false, p)

/-- `PolyominoFactory`: shape tuples plus a color. -/
structure PolyominoFactory where
  tuples : List (Int × Int)
  color : Nat
deriving DecidableEq

/-- `PolyominoFactory.__call__(grid, position)` (the grid only becomes the
parent pointer, which the embedding passes explicitly where needed). -/
def PolyominoFactory.make (f : PolyominoFactory) (position : Int × Int) :
    Polyomino :=
  { lpos := position
    blocks := f.tuples.map fun t => { lpos := t, color := f.color } }

/-! ## game.py : Grid.add_polyomino and Grid.clear_rows -/

/-- Python list indexing: an index `i ∈ [-len, 0)` addresses `len + i`.
(An index outside `[-len, len)` raises `IndexError`; the model keeps the
write at a coordinate no bounds-checked read ever looks at.) -/
def wrapIdx (len : Nat) (i : Int) : Int :=
  if i < 0 then i + len else i

/-- Event-free idealization of `Grid.add_polyomino(polyomino)`: in
`MasterTetris.step` the polyomino's parent is always this grid, so after
the `parent = None` flattening each block's new local offset (and grid
cell) is the polyomino's local offset plus the block's; the block object
keeps its color and is stored at that cell.  Against the staged
`events.py`, the real method raises at `with b.event:` on its first block,
before any cell is written — see `Grid.add_polyominoPy`. -/
def Grid.add_polyomino (g : Grid) (p : Polyomino) : Grid :=
  p.blocks.foldl
    (fun acc b =>
      let q : Int × Int := (p.lpos.1 + b.lpos.1, p.lpos.2 + b.lpos.2)
      { acc with
        cells := (fun x y =>
          if x = wrapIdx acc.width q.1 ∧ y = wrapIdx acc.height q.2 then
            some { lpos := q, color := b.color }
          else acc.cells x y) })
    g

/-- Row-full test at row `y` (`for x in range(width): ... is None`). -/
def Grid.fullRow (g : Grid) (y : Nat) : Bool :=
  (List.range g.width).all fun x : Nat => (g.cells x y).isSome

/-- The blocks of row `y` in column order (`removed.append(grid[x][y])`,
the cells being non-`None` whenever this is reached). -/
def Grid.rowBlocks (g : Grid) (y : Nat) : List Block :=
  (List.range g.width).filterMap fun x : Nat => g.cells x y

/-- One cleared row at `y`: rows `1..y` each receive the row above, every
moved block's vertical local offset grows by 1
(`grid[x][y_p] = grid[x][y_p-1]` for `y_p` in `range(y, 0, -1)`), and row 0
becomes empty; only columns `0..width-1` are touched. -/
def Grid.shiftDown (g : Grid) (y : Nat) : Grid :=
  { g with
    cells := (fun x r =>
      if 0 ≤ x ∧ x < (g.width : Int) then
        if r = 0 then none
        else if 1 ≤ r ∧ r ≤ (y : Int) then
          (g.cells x (r - 1)).map fun b =>
            { b with lpos := (b.lpos.1, b.lpos.2 + 1) }
        else g.cells x r
      else g.cells x r) }

/-- One iteration of the `for y in range(self.height)` loop of
`clear_rows`: a full row is appended to `removed` (pre-shift contents) and
then shifted away. -/
def Grid.clearStep (acc : Grid × List Block) (y : Nat) : Grid × List Block :=
  if acc.1.fullRow y then (acc.1.shiftDown y, acc.2 ++ acc.1.rowBlocks y)
  else acc

/-- The clear_rows loop run over rows `0, 1, …, n-1` in order. -/
def Grid.clearScan (g : Grid) : Nat → Grid × List Block
  | 0 => (g, [])
  | n + 1 => Grid.clearStep (g.clearScan n) n

/-- Event-free idealization of `Grid.clear_rows()`: returns the mutated
grid and the removed blocks.  Against the staged `events.py` any call that
clears a row raises instead — mid-shift at the first moved block's offset
bump, or at the `"block-removed"` emission — and never returns the removed
list; see `Grid.clear_rowsPy`.  The two models agree whenever no row is
full. -/
def Grid.clear_rows (g : Grid) : Grid × List Block :=
  g.clearScan g.height

/-- Specification vocabulary: the rows among `0..n-1` that are full in `g`,
in ascending order. -/
def Grid.fullList (g : Grid) (n : Nat) : List Nat :=
  (List.range n).filter fun y => g.fullRow y

/-- Specification vocabulary: how many of the first `n` rows are full and
strictly beyond row `y` (the rows toward the floor whose clearing shifts
row `y` down). -/
def Grid.clearedBelow (g : Grid) (n y : Nat) : Nat :=
  ((g.fullList n).filter fun z => y < z).length

/-- Specification vocabulary: a block whose vertical local offset grew by
`k`. -/
def Block.bumpN (k : Nat) (b : Block) : Block :=
  { b with lpos := (b.lpos.1, b.lpos.2 + (k : Int)) }

/-! ## game.py : MasterTetris -/

structure MasterTetris where
  grid : Grid
  current_piece : Option Polyomino
  delta : ℚ
  score : Nat
  level : Nat
  lines : Nat
  possible_blocks : List PolyominoFactory

/-- `MasterTetris.__get_new_block(position)`; `n` is the
`random.randrange(0, len(self.possible_blocks))` draw, always below the
list length in a program run. -/
def MasterTetris.get_new_block (t : MasterTetris) (n : Nat)
    (position : Int × Int) : Polyomino :=
  ((t.possible_blocks.get? n).getD { tuples := [], color := 0 }).make position

/-- Event-free idealization of `MasterTetris.down()`.  Against the staged
`events.py` a successful move raises inside `move_delta`'s setter (and
`down`'s own `"piece-moved"` emission is never reached) — see
`MasterTetris.downPy`; a blocked move returns `False` in both models. -/
def MasterTetris.down (t : MasterTetris) : Bool × MasterTetris :=
  match t.current_piece with
  | some p =>
    let r := p.move_delta (some t.grid) (0, 1)
    if r.1 then (true, { t with current_piece := some r.2 }) else (false, t)
  | none => (false, t)

/-- Event-free idealization of `MasterTetris.step(delta)`.  Python's
`0.5 / self.level`, `len(cleared) / self.grid.width` and `self.lines / 10`
are float divisions fed to `int(...)` / `math.floor`; elapsed time and
those quotients are modelled in exact rational arithmetic (the quantities
the program reaches are exactly representable).  `int(x)` on the
non-negative quotients is `Int.toNat ∘ Int.floor`.  Only the sub-threshold
branch of this idealization is also the exact behavior of the staged
source; every gravity-tick branch there raises through a property setter's
`self.event` before completing — see `MasterTetris.stepPy`. -/
def MasterTetris.step (t : MasterTetris) (n : Nat) (dt : ℚ) :
    Bool × MasterTetris :=
  let t1 := { t with delta := t.delta + dt }
  let minDelta : ℚ := 1 / 2 / (t1.level : ℚ)
  if minDelta ≤ t1.delta then
    let t2 := { t1 with delta := 0 }
    let spawned :=
      match t2.current_piece with
      | none => (true,
          { t2 with current_piece :=
              (some (t2.get_new_block n (((t2.grid.width / 2 : Nat) : Int), 0))) })
      | some _ => (false, t2)
    let r := spawned.2.down
    if r.1 then (true, r.2)
    else if spawned.1 then (false, r.2)
    else
      match r.2.current_piece with
      -- unreachable: a failed non-spawn move means the piece is present
      | none => (true, r.2)
      | some p =>
        let t4 := { r.2 with grid := r.2.grid.add_polyomino p,
                             current_piece := none }
        let cleared := t4.grid.clear_rows
        let t5 := { t4 with grid := cleared.1 }
        let N := cleared.2.length
        let t6 := { t5 with lines :=
          (t5.lines + (Int.floor ((N : ℚ) / (t5.grid.width : ℚ))).toNat) }
        let t7 := { t6 with score :=
          (t6.score + (Int.floor ((N : ℚ) * ((N : ℚ) / (t6.grid.width : ℚ)))).toNat) }
        let t8 := { t7 with level :=
          ((Int.floor ((t7.lines : ℚ) / 10)).toNat + 1) }
        (true, t8)
  else (true, t1)

/-! ## game.py against the staged events.py: the crash-faithful model

`EventedObject.__init__` creates only `changed_event`; no game object has
an attribute named `event`.  Hence `Movable.local_position`'s setter writes
the backing field and then raises `AttributeError` at `self.event(...)`
(game.py line 45); the `current_piece`/`score`/`level`/`lines` property
setters of `MasterTetris` and every direct `self.event(...)` emission raise
likewise; `with b.event:` in `add_polyomino` raises before touching the
block.  `EventedObject.parent`'s setter is the exception: it uses the
existing `changed_event` and succeeds. -/

/-- Outcome of running a method of the staged source: the Python return
value, or `exn` — the `AttributeError` raised when the method evaluates the
missing `event` attribute.  Paired with the object state at the moment the
exception escapes. -/
inductive PyRet (α : Type) : Type where
  | ret (a : α)
  | exn
deriving DecidableEq

/-- `Polyomino.rotate_left()` against the staged `events.py`: candidates
and validation as in the idealization; the commit loop's first iteration
writes the head block's backing field and then raises in the setter, so the
head block is rotated and the rest are not; with no blocks the loop is
empty and the `"rotated"` emission raises instead.  Only the blocked path
returns (`False`, untouched). -/
def Polyomino.rotate_leftPy (p : Polyomino) (parent : Option Grid) :
    PyRet Bool × Polyomino :=
  let nlp := p.blocks.map fun b => ((-b.lpos.2, b.lpos.1), b)
  if check_locations parent p.lpos (nlp.map Prod.fst) then
    match p.blocks with
    | [] => (PyRet.exn, p)
    | b :: rest =>
      (PyRet.exn,
        { p with blocks := { b with lpos := (-b.lpos.2, b.lpos.1) } :: rest })
  else (PyRet.ret false, p)

/-- `Polyomino.rotate_right()` against the staged `events.py`: as
`rotate_leftPy` with candidates `(x,y) ↦ (y,-x)`. -/
def Polyomino.rotate_rightPy (p : Polyomino) (parent : Option Grid) :
    PyRet Bool × Polyomino :=
  let nlp := p.blocks.map fun b => ((b.lpos.2, -b.lpos.1), b)
  if check_locations parent p.lpos (nlp.map Prod.fst) then
    match p.blocks with
    | [] => (PyRet.exn, p)
    | b :: rest =>
      (PyRet.exn,
        { p with blocks := { b with lpos := (b.lpos.2, -b.lpos.1) } :: rest })
  else (PyRet.ret false, p)

/-- `Polyomino.move_delta(delta)` against the staged `events.py`: the
validated move writes the piece's backing offset and then raises in the
setter (the explicit `"position-changed"` emission is never reached); a
blocked move returns `False` untouched. -/
def Polyomino.move_deltaPy (p : Polyomino) (parent : Option Grid)
    (delta : Int × Int) : PyRet Bool × Polyomino :=
  let nlp := p.blocks.map fun b => ((b.lpos.1 + delta.1, b.lpos.2 + delta.2), b)
  if check_locations parent p.lpos (nlp.map Prod.fst) then
    (PyRet.exn, { p with lpos := (p.lpos.1 + delta.1, p.lpos.2 + delta.2) })
  else (PyRet.ret false, p)

/-- `Grid.add_polyomino(polyomino)` against the staged `events.py`:
`polyomino.parent = None` succeeds (that setter uses `changed_event`), then
the first loop iteration evaluates `b.event` in the `with` statement and
raises before any offset rewrite, reparent or cell write; with no blocks
the loop body never runs and the method returns with the grid unchanged.
(The piece's dropped parent link is no part of the grid state.) -/
def Grid.add_polyominoPy (g : Grid) (p : Polyomino) : PyRet Unit × Grid :=
  match p.blocks with
  | [] => (PyRet.ret (), g)
  | _ :: _ => (PyRet.exn, g)

/-- Write one storage cell (`self.grid[x][y] = v` at in-range indices). -/
def Grid.setCell (g : Grid) (x y : Nat) (v : Option Block) : Grid :=
  { g with cells := (fun a c =>
      if a = (x : Int) ∧ c = (y : Int) then v else g.cells a c) }

/-- The inner `for x in range(self.width)` pass of the row shift at `y_p`,
against the staged `events.py`: a moved `None` is written and the loop
continues; the first moved block is written to row `y_p`, its offset bump
commits on the shared object — which rows `y_p` and `y_p - 1` now alias —
and the setter raises. -/
def shiftCellsPy (yp : Nat) : Grid → List Nat → PyRet Unit × Grid
  | g, [] => (PyRet.ret (), g)
  | g, x :: xs =>
    match g.cells (x : Int) ((yp - 1 : Nat) : Int) with
    | none => shiftCellsPy yp (g.setCell x yp none) xs
    | some b =>
      (PyRet.exn,
        (g.setCell x yp (some { b with lpos := (b.lpos.1, b.lpos.2 + 1) })).setCell
          x (yp - 1) (some { b with lpos := (b.lpos.1, b.lpos.2 + 1) }))

/-- The `for y_p in range(y, 0, -1)` passes of the row shift, `y_p`
descending, stopping at the first raise. -/
def shiftPassPy : Grid → Nat → PyRet Unit × Grid
  | g, 0 => (PyRet.ret (), g)
  | g, yp + 1 =>
    match shiftCellsPy (yp + 1) g (List.range g.width) with
    | (PyRet.ret _, g2) => shiftPassPy g2 yp
    | (PyRet.exn, g2) => (PyRet.exn, g2)

/-- `for x in range(self.width): self.grid[x][0] = None`. -/
def Grid.clearRow0 (g : Grid) : Grid :=
  { g with cells := (fun a c =>
      if 0 ≤ a ∧ a < (g.width : Int) ∧ c = 0 then none else g.cells a c) }

/-- The `for y in range(self.height)` scan of `clear_rows` against the
staged `events.py`, over rows `0..n-1`: full-row detection and the
`removed` collection are pure and proceed as in `clearScan`, but the shift
crashes at its first moved block.  The removed accumulator is threaded here
for specification even though the corresponding Python local is lost when
the exception propagates. -/
def Grid.clearScanPy (g : Grid) : Nat → PyRet Unit × Grid × List Block
  | 0 => (PyRet.ret (), g, [])
  | n + 1 =>
    match g.clearScanPy n with
    | (PyRet.exn, g2, rem) => (PyRet.exn, g2, rem)
    | (PyRet.ret _, g2, rem) =>
      if g2.fullRow n then
        match shiftPassPy g2 n with
        | (PyRet.ret _, g3) =>
          (PyRet.ret (), g3.clearRow0, rem ++ g2.rowBlocks n)
        | (PyRet.exn, g3) => (PyRet.exn, g3, rem ++ g2.rowBlocks n)
      else (PyRet.ret (), g2, rem)

/-- `Grid.clear_rows()` against the staged `events.py`: if any row was
cleared the call raises — mid-shift at the first moved block, or, with the
grid already fully compacted, at the first `"block-removed"` emission — and
the removed list is never returned; only a call that clears nothing
returns (`[]`). -/
def Grid.clear_rowsPy (g : Grid) : PyRet (List Block) × Grid :=
  match g.clearScanPy g.height with
  | (PyRet.exn, g2, _) => (PyRet.exn, g2)
  | (PyRet.ret _, g2, rem) =>
    match rem with
    | [] => (PyRet.ret [], g2)
    | _ :: _ => (PyRet.exn, g2)

/-- `MasterTetris.down()` against the staged `events.py`: no piece or a
blocked move return `False`; an unblocked move raises inside `move_delta`
with the piece offset committed (were the move somehow to return `True`,
`down`'s own `"piece-moved"` emission would raise anyway). -/
def MasterTetris.downPy (t : MasterTetris) : PyRet Bool × MasterTetris :=
  match t.current_piece with
  | some p =>
    match p.move_deltaPy (some t.grid) (0, 1) with
    | (PyRet.ret b, p2) =>
      if b then (PyRet.exn, { t with current_piece := some p2 })
      else (PyRet.ret false, { t with current_piece := some p2 })
    | (PyRet.exn, p2) => (PyRet.exn, { t with current_piece := some p2 })
  | none => (PyRet.ret false, t)

/-- `MasterTetris.step(delta)` against the staged `events.py`.  The
sub-threshold branch is emission-free and returns `True` with the time
accumulated.  On a gravity tick: a spawn commits the `current_piece`
backing field and raises in the property setter, before any move is
attempted; a blocked descent of an existing piece reaches `add_polyomino`,
which raises at its first block (for a blockless piece, the
`current_piece = None` setter raises just after) — always before
`clear_rows` and the counter updates; an unblocked descent raises inside
`move_delta`.  No gravity-tick branch returns. -/
def MasterTetris.stepPy (t : MasterTetris) (n : Nat) (dt : ℚ) :
    PyRet Bool × MasterTetris :=
  let t1 := { t with delta := t.delta + dt }
  let minDelta : ℚ := 1 / 2 / (t1.level : ℚ)
  if minDelta ≤ t1.delta then
    let t2 := { t1 with delta := 0 }
    match t2.current_piece with
    | none =>
      (PyRet.exn, { t2 with current_piece :=
          (some (t2.get_new_block n (((t2.grid.width / 2 : Nat) : Int), 0))) })
    | some _ =>
      match t2.downPy with
      | (PyRet.exn, t3) => (PyRet.exn, t3)
      | (PyRet.ret b, t3) =>
        if b then (PyRet.ret true, t3)
        else
          match t3.current_piece with
          -- unreachable: a failed non-spawn move means the piece is present
          | none => (PyRet.ret true, t3)
          | some q =>
            match t3.grid.add_polyominoPy q with
            | (PyRet.exn, g2) => (PyRet.exn, { t3 with grid := g2 })
            | (PyRet.ret _, g2) =>
              (PyRet.exn, { t3 with grid := g2, current_piece := none })
  else (PyRet.ret true, t1)

/-! ## states.py : StateManager

States are identified by numeric ids; the lifecycle calls and the
empty-stack event that a transition performs are recorded as a trace.  The
stack's top is the last list element, as in the Python `append`/`pop`/
`[-1]` usage. -/

inductive LifeEvent where
  | exitS (s : Nat)
  | initS (s : Nat)
  | enterS (s : Nat)
  | emptyFired
deriving DecidableEq

/-- `StateManager.active_state`. -/
def activeState (states : List Nat) : Option Nat :=
  states.getLast?

/-- `StateManager.push_state(state)`: exit the current top (if any), then
`state.init(self)`, `state.enter()`, append. -/
def push_state (states : List Nat) (s : Nat) : List Nat × List LifeEvent :=
  match activeState states with
  | some t => (states ++ [s], [.exitS t, .initS s, .enterS s])
  | none => (states ++ [s], [.initS s, .enterS s])

/-- `StateManager.pop_state()`: exit and drop the top if present; then
enter the new top, or fire the `empty` event when none remains. -/
def pop_state (states : List Nat) : List Nat × List LifeEvent :=
  match activeState states with
  | some t =>
    let rest := states.dropLast
    match activeState rest with
    | some u => (rest, [.exitS t, .enterS u])
    | none => (rest, [.exitS t, .emptyFired])
  | none => (states, [.emptyFired])

/-- `StateManager.replace_state(state)`: with no active state it is a
plain push; otherwise exit the top, drop it, and push. -/
def replace_state (states : List Nat) (s : Nat) : List Nat × List LifeEvent :=
  match activeState states with
  | none => push_state states s
  | some t =>
    let r := push_state states.dropLast s
    (r.1, .exitS t :: r.2)

/-- `pop_state()` followed by `push_state(s)`, traces concatenated. -/
def pop_then_push (states : List Nat) (s : Nat) : List Nat × List LifeEvent :=
  let r1 := pop_state states
  let r2 := push_state r1.1 s
  (r2.1, r1.2 ++ r2.2)

/-! ## Concrete fixtures used by closed witness theorems -/

/-- An empty 4×4 grid. -/
def gEmpty : Grid := { width := 4, height := 4, cells := fun _ _ => none }

/-- A 3×3 grid whose only occupied cell is (1,2). -/
def gBlocked : Grid :=
  { width := 3, height := 3
    cells := (fun x y =>
      if x = 1 ∧ y = 2 then some { lpos := (1, 2), color := 3 } else none) }

/-- A two-block domino at local origin, placed at (1,1). -/
def pRot : Polyomino :=
  { lpos := (1, 1)
    blocks := [{ lpos := (0, 0), color := 1 }, { lpos := (1, 0), color := 1 }] }

/-- A one-block piece at (1,1) whose block sits at relative (1,0). -/
def pSide : Polyomino :=
  { lpos := (1, 1), blocks := [{ lpos := (1, 0), color := 2 }] }

/-- A two-block piece at (1,1) whose head block moves under rotation:
blocks at relative (1,0) and (2,0). -/
def pTwo : Polyomino :=
  { lpos := (1, 1)
    blocks := [{ lpos := (1, 0), color := 1 }, { lpos := (2, 0), color := 1 }] }

/-- 2×3 grid: row 2 full, one extra block at (0,1). -/
def gRowFull : Grid :=
  { width := 2, height := 3
    cells := (fun x y =>
      if y = 2 ∧ 0 ≤ x ∧ x < 2 then some { lpos := (x, y), color := 7 }
      else if x = 0 ∧ y = 1 then some { lpos := (0, 1), color := 5 }
      else none) }

/-- Game whose 4×4 grid blocks the spawn cell's first downward move: the
spawn column is `int(4/2) = 2` and cell (2,1) is occupied. -/
def tSpawnBlocked : MasterTetris :=
  { grid :=
      { width := 4, height := 4
        cells := (fun x y =>
          if x = 2 ∧ y = 1 then some { lpos := (2, 1), color := 1 } else none) }
    current_piece := none
    delta := 0
    score := 0
    level := 1
    lines := 0
    possible_blocks := [{ tuples := [(0, 0)], color := 1 }] }

/-- 10×4 grid whose rows 2 and 3 are full except for column 5. -/
def gTwoRows : Grid :=
  { width := 10, height := 4
    cells := (fun x y =>
      if (y = 2 ∨ y = 3) ∧ 0 ≤ x ∧ x < 10 ∧ x ≠ 5 then
        some { lpos := (x, y), color := 2 }
      else none) }

/-- A vertical domino filling cells (5,2) and (5,3) of `gTwoRows`. -/
def pLand : Polyomino :=
  { lpos := (5, 2)
    blocks := [{ lpos := (0, 0), color := 4 }, { lpos := (0, 1), color := 4 }] }

/-- Game about to land `pLand` into `gTwoRows`, completing two rows. -/
def tLanding : MasterTetris :=
  { grid := gTwoRows
    current_piece := some pLand
    delta := 0
    score := 0
    level := 1
    lines := 0
    possible_blocks := [{ tuples := [(0, 0)], color := 1 }] }

/-! ## Theorems -/

/-- C5: along any parent chain (offsets listed from the queried entity up
to the root, origin (0,0) beyond the root or a parent without a position
capability) the queried absolute position is the sum of all local offsets,
and changing any ancestor's local offset shifts the descendant's queried
position by exactly that change. -/
theorem c5_chain_position_sum :
    (∀ chain : List (Int × Int),
      chainPosition chain = ((chain.map Prod.fst).sum, (chain.map Prod.snd).sum)) ∧
    (∀ (pre post : List (Int × Int)) (a b : Int × Int),
      chainPosition (pre ++ b :: post) =
        ((chainPosition (pre ++ a :: post)).1 + (b.1 - a.1),
         (chainPosition (pre ++ a :: post)).2 + (b.2 - a.2))) := by
  have hsum : ∀ chain : List (Int × Int),
      chainPosition chain = ((chain.map Prod.fst).sum, (chain.map Prod.snd).sum) := by
    intro chain
    induction chain with
    | nil => rfl
    | cons l ps ih =>
      simp only [chainPosition, translate_position, ih, List.map_cons, List.sum_cons]
      exact Prod.ext (by ring) (by ring)
  refine ⟨hsum, fun pre post a b => ?_⟩
  rw [hsum, hsum]
  simp only [List.map_append, List.sum_append, List.map_cons, List.sum_cons]
  exact Prod.ext (by ring) (by ring)

/-- C6: `is_clear` is true for any negative row, false for a non-negative
row outside the field, and for in-field coordinates true exactly when the
cell is empty. -/
theorem c6_is_clear_spec (g : Grid) (x y : Int) :
    (y < 0 → g.is_clear (x, y) = true) ∧
    ((x < 0 ∨ (g.width : Int) ≤ x ∨ (g.height : Int) ≤ y) → 0 ≤ y →
      g.is_clear (x, y) = false) ∧
    (0 ≤ x → x < (g.width : Int) → 0 ≤ y → y < (g.height : Int) →
      (g.is_clear (x, y) = true ↔ g.cells x y = none)) := by
  refine ⟨fun h => ?_, fun hout hy => ?_, fun hx1 hx2 hy1 hy2 => ?_⟩
  · simp only [Grid.is_clear]
    rw [if_pos h]
  · simp only [Grid.is_clear]
    rw [if_neg (by omega), if_pos hout]
  · simp only [Grid.is_clear]
    rw [if_neg (by omega), if_neg (by omega)]
    exact Option.isNone_iff_eq_none

/-- C6 witness: concrete instances of the three clauses on `gBlocked`. -/
theorem c6_is_clear_spec_witness :
    Grid.is_clear gBlocked (0, -1) = true ∧
    Grid.is_clear gBlocked (5, 0) = false ∧
    (Grid.is_clear gBlocked (1, 2) = true ↔ gBlocked.cells 1 2 = none) :=
  ⟨(c6_is_clear_spec gBlocked 0 (-1)).1 (by decide),
   (c6_is_clear_spec gBlocked 5 0).2.1 (by decide) (by decide),
   (c6_is_clear_spec gBlocked 1 2).2.2 (by decide) (by decide) (by decide)
     (by decide)⟩

/-- `all` over a mapped list is `all` of the composite. -/
theorem all_map_comp {α β : Type} (l : List α) (f : α → β) (p : β → Bool) :
    (l.map f).all p = l.all fun a => p (f a) := by
  induction l with
  | nil => rfl
  | cons a tl ih => simp [ih]

/-- `check_locations` over the candidate list built from the blocks is the
conjunction of per-block clearness of the translated candidate cells. -/
theorem check_locations_map (g : Grid) (pos : Int × Int) (bs : List Block)
    (f : Block → Int × Int) :
    check_locations (some g) pos (bs.map f) =
      bs.all fun b => g.is_clear (pos.1 + (f b).1, pos.2 + (f b).2) := by
  simp only [check_locations, all_map_comp]

/-- `rotate_left` written as a single guarded commit. -/
theorem rotate_left_eq (p : Polyomino) (parent : Option Grid) :
    p.rotate_left parent =
      if check_locations parent p.lpos (p.blocks.map fun b => (-b.lpos.2, b.lpos.1))
      then (true, { p with blocks :=
        (p.blocks.map fun b => { b with lpos := (-b.lpos.2, b.lpos.1) }) })
      else (false, p) := by
  simp only [Polyomino.rotate_left, List.map_map, Function.comp_def]

/-- `rotate_right` written as a single guarded commit. -/
theorem rotate_right_eq (p : Polyomino) (parent : Option Grid) :
    p.rotate_right parent =
      if check_locations parent p.lpos (p.blocks.map fun b => (b.lpos.2, -b.lpos.1))
      then (true, { p with blocks :=
        (p.blocks.map fun b => { b with lpos := (b.lpos.2, -b.lpos.1) }) })
      else (false, p) := by
  simp only [Polyomino.rotate_right, List.map_map, Function.comp_def]

/-- `move_delta` written as a single guarded commit. -/
theorem move_delta_eq (p : Polyomino) (parent : Option Grid) (d : Int × Int) :
    p.move_delta parent d =
      if check_locations parent p.lpos
          (p.blocks.map fun b => (b.lpos.1 + d.1, b.lpos.2 + d.2))
      then (true, { p with lpos := (p.lpos.1 + d.1, p.lpos.2 + d.2) })
      else (false, p) := by
  simp only [Polyomino.move_delta, List.map_map, Function.comp_def]

/-- The event-free idealization of the three piece operations is
all-or-nothing, as the methods' validate-then-commit structure intends: a
blocked candidate cell means failure with nothing changed, all-clear means
success with every candidate offset committed (for a move, the piece's own
offset).  Cited as intent evidence for the code-bug findings on the staged
source, whose success paths raise mid-commit instead. -/
theorem ideal_ops_atomic (g : Grid) (p : Polyomino) (d : Int × Int) :
    ((∃ b ∈ p.blocks,
        g.is_clear (p.lpos.1 + -b.lpos.2, p.lpos.2 + b.lpos.1) = false) →
      p.rotate_left (some g) = (false, p)) ∧
    ((∀ b ∈ p.blocks,
        g.is_clear (p.lpos.1 + -b.lpos.2, p.lpos.2 + b.lpos.1) = true) →
      p.rotate_left (some g) = (true, { p with blocks :=
        (p.blocks.map fun b => { b with lpos := (-b.lpos.2, b.lpos.1) }) })) ∧
    ((∃ b ∈ p.blocks,
        g.is_clear (p.lpos.1 + b.lpos.2, p.lpos.2 + -b.lpos.1) = false) →
      p.rotate_right (some g) = (false, p)) ∧
    ((∀ b ∈ p.blocks,
        g.is_clear (p.lpos.1 + b.lpos.2, p.lpos.2 + -b.lpos.1) = true) →
      p.rotate_right (some g) = (true, { p with blocks :=
        (p.blocks.map fun b => { b with lpos := (b.lpos.2, -b.lpos.1) }) })) ∧
    ((∃ b ∈ p.blocks,
        g.is_clear (p.lpos.1 + (b.lpos.1 + d.1), p.lpos.2 + (b.lpos.2 + d.2))
          = false) →
      p.move_delta (some g) d = (false, p)) ∧
    ((∀ b ∈ p.blocks,
        g.is_clear (p.lpos.1 + (b.lpos.1 + d.1), p.lpos.2 + (b.lpos.2 + d.2))
          = true) →
      p.move_delta (some g) d =
        (true, { p with lpos := (p.lpos.1 + d.1, p.lpos.2 + d.2) })) := by
  have hfail : ∀ (f : Block → Int × Int),
      (∃ b ∈ p.blocks, g.is_clear (p.lpos.1 + (f b).1, p.lpos.2 + (f b).2) = false) →
      check_locations (some g) p.lpos (p.blocks.map f) = false := by
    intro f hex
    rw [check_locations_map]
    rcases hex with ⟨b, hb, hfb⟩
    exact List.all_eq_false.mpr ⟨b, hb, by simp [hfb]⟩
  have hok : ∀ (f : Block → Int × Int),
      (∀ b ∈ p.blocks, g.is_clear (p.lpos.1 + (f b).1, p.lpos.2 + (f b).2) = true) →
      check_locations (some g) p.lpos (p.blocks.map f) = true := by
    intro f hall
    rw [check_locations_map]
    exact List.all_eq_true.mpr hall
  refine ⟨fun hex => ?_, fun hall => ?_, fun hex => ?_, fun hall => ?_,
    fun hex => ?_, fun hall => ?_⟩
  · rw [rotate_left_eq,
      if_neg (by simp [hfail (fun b => (-b.lpos.2, b.lpos.1)) hex])]
  · rw [rotate_left_eq,
      if_pos (by simp [hok (fun b => (-b.lpos.2, b.lpos.1)) hall])]
  · rw [rotate_right_eq,
      if_neg (by simp [hfail (fun b => (b.lpos.2, -b.lpos.1)) hex])]
  · rw [rotate_right_eq,
      if_pos (by simp [hok (fun b => (b.lpos.2, -b.lpos.1)) hall])]
  · rw [move_delta_eq,
      if_neg (by simp [hfail (fun b => (b.lpos.1 + d.1, b.lpos.2 + d.2)) hex])]
  · rw [move_delta_eq,
      if_pos (by simp [hok (fun b => (b.lpos.1 + d.1, b.lpos.2 + d.2)) hall])]

/-- Concrete evaluation of `ideal_ops_atomic`: on `gBlocked`, `pSide`'s
left rotation is blocked by the occupied cell (1,2) and returns the
untouched piece, while its move by (0,-1) is clear and commits the piece
offset. -/
theorem ideal_ops_atomic_example :
    pSide.rotate_left (some gBlocked) = (false, pSide) ∧
    pSide.move_delta (some gBlocked) (0, -1) =
      (true, { pSide with lpos := (pSide.lpos.1 + 0, pSide.lpos.2 + -1) }) :=
  ⟨(ideal_ops_atomic gBlocked pSide (0, -1)).1 (by decide),
   (ideal_ops_atomic gBlocked pSide (0, -1)).2.2.2.2.2 (by decide)⟩

/-- A left-rotated block list right-rotated is the original list. -/
theorem rotLR_cancel (bs : List Block) :
    ((bs.map fun b => { b with lpos := (-b.lpos.2, b.lpos.1) }).map
      fun b => { b with lpos := (b.lpos.2, -b.lpos.1) }) = bs := by
  rw [List.map_map]
  apply List.map_id''
  intro b
  obtain ⟨⟨bx, bz⟩, bc⟩ := b
  simp [Function.comp]

/-- In the event-free idealization, a left rotation followed by a right
rotation that both succeed restores the piece exactly: every block regains
its original local offset (and the piece offset never moved).  Cited as
intent evidence for the code-bug finding on the staged source, where the
first rotation's success can never complete. -/
theorem ideal_rotate_round_trip (g : Grid) (p p1 p2 : Polyomino)
    (h1 : p.rotate_left (some g) = (true, p1))
    (h2 : p1.rotate_right (some g) = (true, p2)) : p2 = p := by
  rw [rotate_left_eq] at h1
  split at h1
  case isFalse => simp at h1
  case isTrue =>
    simp only [Prod.mk.injEq, true_and] at h1
    rw [rotate_right_eq] at h2
    split at h2
    case isFalse => simp at h2
    case isTrue =>
      simp only [Prod.mk.injEq, true_and] at h2
      subst h2
      subst h1
      show ({ p with blocks :=
        ((p.blocks.map fun b => { b with lpos := (-b.lpos.2, b.lpos.1) }).map
          fun b => { b with lpos := (b.lpos.2, -b.lpos.1) }) } : Polyomino) = p
      rw [rotLR_cancel]

/-- Concrete evaluation of `ideal_rotate_round_trip`: `pRot` rotated left
then right on the empty grid (both rotations succeed) comes back exactly. -/
theorem ideal_rotate_round_trip_example :
    ((pRot.rotate_left (some gEmpty)).2.rotate_right (some gEmpty)).2 = pRot :=
  ideal_rotate_round_trip gEmpty pRot (pRot.rotate_left (some gEmpty)).2
    ((pRot.rotate_left (some gEmpty)).2.rotate_right (some gEmpty)).2
    (by decide) (by decide)

/-- C8 counterexample: handler 0, whose body subscribes handler 1
(`event += h`, idempotent append), is the only handler when the invocation
begins; invoking the dispatcher nevertheless calls handler 1 as well,
because the Python loop iterates the live handler list — not the list as
it existed when invocation began. -/
theorem c8_live_iteration_counterexample :
    (EventDispatcher.call { handlers := [0], supress_count := 0 }
        (fun h hs => if h = 0 then (if 1 ∈ hs then hs else hs ++ [1]) else hs)
        5).2 = [0, 1] ∧
    (EventDispatcher.call { handlers := [0], supress_count := 0 }
        (fun h hs => if h = 0 then (if 1 ∈ hs then hs else hs ++ [1]) else hs)
        5).2 ≠ [0] := by
  decide

/-- Inert-handler run of the live-list loop: if no handler rewrites the
handler list, the loop from index `i` invokes exactly the remaining
handlers in order. -/
theorem callFrom_inert (act : Nat → List Nat → List Nat)
    (hact : ∀ h hs, act h hs = hs) :
    ∀ (fuel i : Nat) (hs : List Nat), hs.length - i ≤ fuel →
      callFrom act fuel i hs = (hs, hs.drop i) := by
  intro fuel
  induction fuel with
  | zero =>
    intro i hs hle
    have : hs.length ≤ i := by omega
    simp [callFrom, List.drop_eq_nil_of_le this]
  | succ fuel ih =>
    intro i hs hle
    by_cases hi : i < hs.length
    · rw [callFrom, dif_pos hi]
      show ((callFrom act fuel (i + 1) (act (hs.get ⟨i, hi⟩) hs)).1,
          hs.get ⟨i, hi⟩ :: (callFrom act fuel (i + 1) (act (hs.get ⟨i, hi⟩) hs)).2)
        = (hs, hs.drop i)
      rw [hact, ih (i + 1) hs (by omega), List.drop_eq_getElem_cons hi]
      simp
    · rw [callFrom, dif_neg hi]
      rw [List.drop_eq_nil_of_le (by omega)]

/-- C8 (amended): dispatch iterates the live handler list by index, so a
handler subscribed during dispatch is also invoked in that same invocation
(see the counterexample); when no handler mutates the subscription list
during dispatch, the handlers invoked are exactly the handler list as it
existed when the unsuppressed invocation began — in order, none skipped,
none repeated. -/
theorem c8_inert_dispatch_snapshot (d : EventDispatcher)
    (act : Nat → List Nat → List Nat) (fuel : Nat)
    (hact : ∀ h hs, act h hs = hs) (hsup : d.supress_count = 0)
    (hfuel : d.handlers.length ≤ fuel) :
    d.call act fuel = (d.handlers, d.handlers) := by
  rw [EventDispatcher.call, if_neg (by omega)]
  rw [callFrom_inert act hact fuel 0 d.handlers (by omega)]
  simp

/-- C8 amended-theorem witness: two subscription-preserving handlers are
both invoked, in order. -/
theorem c8_inert_dispatch_snapshot_witness :
    EventDispatcher.call { handlers := [3, 7], supress_count := 0 }
      (fun _ hs => hs) 2 = ([3, 7], [3, 7]) :=
  c8_inert_dispatch_snapshot { handlers := [3, 7], supress_count := 0 }
    (fun _ hs => hs) 2 (fun _ _ => rfl) rfl (by decide)

/-- C9 counterexample: replacing the top of the stack [0, 1] with 2 does
not produce the lifecycle-call sequence of pop-then-push — pop-then-push
re-enters (and then re-exits) the state 0 below the popped top, replace
does not. -/
theorem c9_trace_counterexample :
    (replace_state [0, 1] 2).2 ≠ (pop_then_push [0, 1] 2).2 ∧
    (replace_state [0, 1] 2).2 =
      [.exitS 1, .exitS 0, .initS 2, .enterS 2] ∧
    (pop_then_push [0, 1] 2).2 =
      [.exitS 1, .enterS 0, .exitS 0, .initS 2, .enterS 2] := by
  decide

/-- C9 (amended): `replace_state` leaves exactly the stack that
pop-then-push leaves — the old stack with its top replaced by the new
state (or just the new state when the stack was empty); the lifecycle call
sequences of the two differ as the counterexample shows. -/
theorem c9_replace_stack_equiv (states : List Nat) (s : Nat) :
    (replace_state states s).1 = (pop_then_push states s).1 := by
  rcases h : activeState states with _ | t
  · simp [replace_state, pop_then_push, pop_state, push_state, h]
  · rcases h2 : activeState states.dropLast with _ | u <;>
      simp [replace_state, pop_then_push, pop_state, push_state, h, h2]

/-- C10: a `step` whose accumulated elapsed time plus `dt` stays below the
0.5/level gravity threshold returns success and changes nothing but the
time accumulator, which grows by exactly `dt`. -/
theorem c10_subthreshold_step (t : MasterTetris) (n : Nat) (dt : ℚ)
    (h : t.delta + dt < 1 / 2 / (t.level : ℚ)) :
    t.step n dt = (true, { t with delta := t.delta + dt }) := by
  rw [MasterTetris.step]
  simp only []
  rw [if_neg (by simpa using not_le.mpr h)]

/-- C10 witness: a quarter-second step at level 1 (threshold 0.5 s) only
accumulates time. -/
theorem c10_subthreshold_step_witness :
    tSpawnBlocked.step 0 (1 / 4) =
      (true, { tSpawnBlocked with delta := tSpawnBlocked.delta + 1 / 4 }) :=
  c10_subthreshold_step tSpawnBlocked 0 (1 / 4) (by norm_num [tSpawnBlocked])

/-! ### clear_rows: scan invariants -/

theorem clearScan_width (g : Grid) : ∀ n, (g.clearScan n).1.width = g.width := by
  intro n
  induction n with
  | zero => rfl
  | succ n ih =>
    simp only [Grid.clearScan, Grid.clearStep]
    split
    · simpa [Grid.shiftDown] using ih
    · exact ih

theorem clearScan_height (g : Grid) : ∀ n, (g.clearScan n).1.height = g.height := by
  intro n
  induction n with
  | zero => rfl
  | succ n ih =>
    simp only [Grid.clearScan, Grid.clearStep]
    split
    · simpa [Grid.shiftDown] using ih
    · exact ih

/-- The scan of the first `n` rows never touches a cell in a row `≥ n`. -/
theorem clearScan_cells_high (g : Grid) :
    ∀ (n : Nat) (x r : Int), (n : Int) ≤ r →
      (g.clearScan n).1.cells x r = g.cells x r := by
  intro n
  induction n with
  | zero => intro x r _; rfl
  | succ n ih =>
    intro x r hr
    simp only [Grid.clearScan, Grid.clearStep]
    split
    · show ((g.clearScan n).1.shiftDown n).cells x r = g.cells x r
      simp only [Grid.shiftDown]
      have hr0 : ¬r = 0 := by omega
      have hrn : ¬(1 ≤ r ∧ r ≤ (n : Int)) := by omega
      split_ifs with h1
      · exact ih x r (by omega)
      · exact ih x r (by omega)
    · exact ih x r (by omega)

/-- The scan never touches a cell in a column outside `[0, width)`. -/
theorem clearScan_cells_outside (g : Grid) :
    ∀ (n : Nat) (x r : Int), (x < 0 ∨ (g.width : Int) ≤ x) →
      (g.clearScan n).1.cells x r = g.cells x r := by
  intro n
  induction n with
  | zero => intro x r _; rfl
  | succ n ih =>
    intro x r hx
    simp only [Grid.clearScan, Grid.clearStep]
    split
    · show ((g.clearScan n).1.shiftDown n).cells x r = g.cells x r
      simp only [Grid.shiftDown]
      rw [if_neg (by rw [clearScan_width]; omega)]
      exact ih x r hx
    · exact ih x r hx

/-- Bool `all` respects pointwise equality on the list's members. -/
theorem all_congr_mem {α : Type} (l : List α) (f f' : α → Bool)
    (h : ∀ a ∈ l, f a = f' a) : l.all f = l.all f' := by
  induction l with
  | nil => rfl
  | cons a tl ih =>
    simp only [List.all_cons, h a (by simp), ih fun a ha => h a (by simp [ha])]

/-- `filterMap` respects pointwise equality on the list's members. -/
theorem filterMap_congr_mem {α β : Type} (l : List α) (f f' : α → Option β)
    (h : ∀ a ∈ l, f a = f' a) : l.filterMap f = l.filterMap f' := by
  induction l with
  | nil => rfl
  | cons a tl ih =>
    simp only [List.filterMap_cons, h a (by simp),
      ih fun a ha => h a (by simp [ha])]

/-- At the iteration for row `n` the scan still sees the original row `n`,
hence the same row-full verdict. -/
theorem clearScan_fullRow (g : Grid) (n : Nat) :
    (g.clearScan n).1.fullRow n = g.fullRow n := by
  simp only [Grid.fullRow, clearScan_width]
  exact all_congr_mem _ _ _ fun x _ => by
    rw [clearScan_cells_high g n x n le_rfl]

/-- …and the same row contents. -/
theorem clearScan_rowBlocks (g : Grid) (n : Nat) :
    (g.clearScan n).1.rowBlocks n = g.rowBlocks n := by
  simp only [Grid.rowBlocks, clearScan_width]
  exact filterMap_congr_mem _ _ _ fun x _ => by
    rw [clearScan_cells_high g n x n le_rfl]

theorem fullList_succ (g : Grid) (n : Nat) :
    g.fullList (n + 1) =
      if g.fullRow n then g.fullList n ++ [n] else g.fullList n := by
  simp only [Grid.fullList, List.range_succ, List.filter_append]
  split <;> rename_i h <;> simp [List.filter, h]

theorem fullList_mem_lt (g : Grid) (n : Nat) : ∀ y ∈ g.fullList n, y < n := by
  intro y hy
  have := List.of_mem_filter hy
  have hm := List.mem_of_mem_filter hy
  simpa using List.mem_range.mp hm

theorem fullList_length_le (g : Grid) (n : Nat) : (g.fullList n).length ≤ n := by
  simpa using List.length_filter_le (fun y => g.fullRow y) (List.range n)

theorem clearedBelow_succ_full (g : Grid) (n y : Nat)
    (hf : g.fullRow n = true) (hy : y < n) :
    g.clearedBelow (n + 1) y = g.clearedBelow n y + 1 := by
  simp [Grid.clearedBelow, fullList_succ, hf, List.filter_append, List.filter,
    hy]

theorem clearedBelow_succ_notfull (g : Grid) (n y : Nat)
    (hf : g.fullRow n = false) :
    g.clearedBelow (n + 1) y = g.clearedBelow n y := by
  simp [Grid.clearedBelow, fullList_succ, hf]

theorem clearedBelow_eq_zero (g : Grid) (n y : Nat) (hy : n ≤ y + 1) :
    g.clearedBelow n y = 0 := by
  simp only [Grid.clearedBelow, List.length_eq_zero]
  rw [List.filter_eq_nil_iff]
  intro z hz
  have := fullList_mem_lt g n z hz
  simp only [decide_eq_true_eq]
  omega

theorem option_map_bumpN_zero (o : Option Block) :
    o.map (Block.bumpN 0) = o := by
  cases o with
  | none => rfl
  | some b =>
    obtain ⟨⟨bx, bz⟩, bc⟩ := b
    simp [Block.bumpN]

/-- One more single-row bump on a `k`-times-bumped cell bumps `k+1` times. -/
theorem option_map_bump (o : Option Block) (k : Nat) :
    (o.map (Block.bumpN k)).map
      (fun b => { b with lpos := (b.lpos.1, b.lpos.2 + 1) }) =
      o.map (Block.bumpN (k + 1)) := by
  cases o with
  | none => rfl
  | some b =>
    obtain ⟨⟨bx, bz⟩, bc⟩ := b
    have harith : bz + (k : Int) + 1 = bz + ((k : Int) + 1) := by ring
    simp [Block.bumpN, harith]

theorem clearedBelow_lt (g : Grid) :
    ∀ n y, y < n → y + g.clearedBelow n y < n := by
  intro n
  induction n with
  | zero => intro y hy; omega
  | succ n ih =>
    intro y hy
    by_cases hyn : y = n
    · rw [hyn, clearedBelow_eq_zero g (n + 1) n (by omega)]
      omega
    · have hy' : y < n := by omega
      cases hf : g.fullRow n with
      | true =>
        rw [clearedBelow_succ_full g n y hf hy']
        have := ih y hy'
        omega
      | false =>
        rw [clearedBelow_succ_notfull g n y hf]
        have := ih y hy'
        omega

/-- The removed list after scanning rows `0..n-1` is exactly the original
contents of the originally-full rows among them, row by ascending row. -/
theorem clearScan_removed (g : Grid) :
    ∀ n, (g.clearScan n).2 = (g.fullList n).flatMap g.rowBlocks := by
  intro n
  induction n with
  | zero => rfl
  | succ n ih =>
    simp only [Grid.clearScan, Grid.clearStep]
    split <;> rename_i hfull
    · rw [clearScan_fullRow] at hfull
      rw [fullList_succ, if_pos hfull, List.flatMap_append]
      show (g.clearScan n).2 ++ (g.clearScan n).1.rowBlocks n = _
      rw [ih, clearScan_rowBlocks]
      simp
    · rw [clearScan_fullRow, Bool.not_eq_true] at hfull
      rw [fullList_succ, hfull]
      simpa using ih

/-- A row that is not full, originally at `y`, ends the scan of rows
`0..n-1` at row `y + clearedBelow n y`, every block's vertical offset
bumped by that same count. -/
theorem clearScan_survivor (g : Grid) :
    ∀ n y, y < n → g.fullRow y = false → ∀ x : Int, 0 ≤ x → x < (g.width : Int) →
      (g.clearScan n).1.cells x ((y + g.clearedBelow n y : Nat) : Int) =
        (g.cells x (y : Int)).map (Block.bumpN (g.clearedBelow n y)) := by
  intro n
  induction n with
  | zero => intro y hy; exact absurd hy (by omega)
  | succ n ih =>
    intro y hy hnotfull x hx0 hxw
    simp only [Grid.clearScan, Grid.clearStep]
    split <;> rename_i hfull
    · rw [clearScan_fullRow] at hfull
      have hy' : y < n := by
        rcases Nat.lt_succ_iff_lt_or_eq.mp hy with h | h
        · exact h
        · rw [h, hfull] at hnotfull
          exact absurd hnotfull (by simp)
      rw [clearedBelow_succ_full g n y hfull hy']
      show ((g.clearScan n).1.shiftDown n).cells x _ = _
      simp only [Grid.shiftDown]
      rw [if_pos (by rw [clearScan_width]; exact ⟨hx0, hxw⟩)]
      have harith := clearedBelow_lt g n y hy'
      rw [if_neg (by push_cast; omega), if_pos (by constructor <;> push_cast <;> omega)]
      have hr1 : ((y + (g.clearedBelow n y + 1) : Nat) : Int) - 1 =
          ((y + g.clearedBelow n y : Nat) : Int) := by push_cast; ring
      rw [hr1, ih y hy' hnotfull x hx0 hxw, option_map_bump]
    · rw [clearScan_fullRow, Bool.not_eq_true] at hfull
      by_cases hyn : y = n
      · rw [hyn, clearedBelow_eq_zero g (n + 1) n le_rfl, Nat.add_zero,
          option_map_bumpN_zero]
        exact clearScan_cells_high g n x n le_rfl
      · have hy' : y < n := by omega
        rw [clearedBelow_succ_notfull g n y hfull]
        exact ih y hy' hnotfull x hx0 hxw

/-- After scanning rows `0..n-1`, the top `clearedCount` rows are empty
(in every in-range column). -/
theorem clearScan_top (g : Grid) :
    ∀ n r, r < (g.fullList n).length → ∀ x : Int, 0 ≤ x → x < (g.width : Int) →
      (g.clearScan n).1.cells x (r : Int) = none := by
  intro n
  induction n with
  | zero =>
    intro r hr x _ _
    exact absurd hr (by simp [Grid.fullList])
  | succ n ih =>
    intro r hr x hx0 hxw
    simp only [Grid.clearScan, Grid.clearStep]
    split <;> rename_i hfull
    · rw [clearScan_fullRow] at hfull
      have hlen : (g.fullList (n + 1)).length = (g.fullList n).length + 1 := by
        rw [fullList_succ, if_pos hfull]
        simp
      show ((g.clearScan n).1.shiftDown n).cells x (r : Int) = none
      simp only [Grid.shiftDown]
      rw [if_pos (by rw [clearScan_width]; exact ⟨hx0, hxw⟩)]
      by_cases hr0 : r = 0
      · rw [if_pos (by rw [hr0]; rfl)]
      · have hrlen : r - 1 < (g.fullList n).length := by omega
        have hrn : r ≤ n := by
          have := fullList_length_le g n
          omega
        rw [if_neg (by omega), if_pos (by constructor <;> omega)]
        have hr1 : (r : Int) - 1 = ((r - 1 : Nat) : Int) := by omega
        rw [hr1, ih (r - 1) hrlen x hx0 hxw]
        rfl
    · rw [clearScan_fullRow, Bool.not_eq_true] at hfull
      rw [fullList_succ, hfull] at hr
      simp only [Bool.false_eq_true, if_false] at hr
      exact ih r hr x hx0 hxw

theorem length_filterMap_of_forall_isSome {α β : Type} (l : List α)
    (f : α → Option β) (h : ∀ a ∈ l, (f a).isSome) :
    (l.filterMap f).length = l.length := by
  induction l with
  | nil => rfl
  | cons a tl ih =>
    rcases Option.isSome_iff_exists.mp (h a (by simp)) with ⟨b, hb⟩
    simp [List.filterMap_cons, hb, ih fun a ha => h a (by simp [ha])]

/-- A full row holds exactly `width` blocks. -/
theorem rowBlocks_length_of_full (g : Grid) (y : Nat) (h : g.fullRow y = true) :
    (g.rowBlocks y).length = g.width := by
  have hall := List.all_eq_true.mp h
  rw [Grid.rowBlocks,
    length_filterMap_of_forall_isSome _ _ fun x hx => hall x hx]
  simp

/-- The event-free idealization of `clear_rows` removes exactly the blocks
of the rows all of whose `width` cells are occupied — all such rows in the
one call, `width` blocks per such row, returned row by ascending row; every
surviving row drops by one row per cleared row beyond it (toward the
floor), its blocks' vertical local offsets growing by the same count; and
the vacated top rows are left empty.  Cited as intent evidence for the
code-bug finding on the staged source, where any call that clears a row
raises instead. -/
theorem ideal_clear_rows (g : Grid) :
    ((g.clear_rows).2 = (g.fullList g.height).flatMap g.rowBlocks) ∧
    (∀ y ∈ g.fullList g.height, (g.rowBlocks y).length = g.width) ∧
    (∀ y, y < g.height → g.fullRow y = false →
      ∀ x : Int, 0 ≤ x → x < (g.width : Int) →
        (g.clear_rows).1.cells x ((y + g.clearedBelow g.height y : Nat) : Int) =
          (g.cells x (y : Int)).map (Block.bumpN (g.clearedBelow g.height y))) ∧
    (∀ r : Nat, r < (g.fullList g.height).length →
      ∀ x : Int, 0 ≤ x → x < (g.width : Int) →
        (g.clear_rows).1.cells x (r : Int) = none) := by
  refine ⟨clearScan_removed g g.height, fun y hy => ?_,
    fun y hy hnf x hx0 hxw => clearScan_survivor g g.height y hy hnf x hx0 hxw,
    fun r hr x hx0 hxw => clearScan_top g g.height r hr x hx0 hxw⟩
  exact rowBlocks_length_of_full g y (List.of_mem_filter hy)

/-! ### step: landing and spawn-blocked branches -/

theorem add_polyomino_width (g : Grid) (p : Polyomino) :
    (g.add_polyomino p).width = g.width := by
  rw [Grid.add_polyomino]
  generalize g = acc
  induction p.blocks generalizing acc with
  | nil => rfl
  | cons b tl ih => exact ih _

theorem clear_rows_width (g : Grid) : (g.clear_rows).1.width = g.width :=
  clearScan_width g g.height

theorem length_flatMap_const {α β : Type} (l : List α) (f : α → List β)
    (w : Nat) (h : ∀ a ∈ l, (f a).length = w) :
    (l.flatMap f).length = l.length * w := by
  induction l with
  | nil => simp
  | cons a tl ih =>
    simp only [List.flatMap_cons, List.length_append, List.length_cons,
      h a (by simp), ih fun a ha => h a (by simp [ha])]
    ring

/-- Members of `fullList` are full rows. -/
theorem mem_fullList (g : Grid) (n y : Nat) (hy : y ∈ g.fullList n) :
    g.fullRow y = true := by
  have hy' : y ∈ (List.range n).filter fun z => g.fullRow z := hy
  simpa using List.of_mem_filter hy'

/-- The number of blocks `clear_rows` removes is a multiple of the grid
width: `width` blocks per cleared row. -/
theorem clear_rows_length_dvd (g : Grid) :
    g.width ∣ (g.clear_rows).2.length := by
  have h1 : (g.clear_rows).2 = (g.fullList g.height).flatMap g.rowBlocks :=
    clearScan_removed g g.height
  rw [h1, length_flatMap_const _ _ g.width
    (fun y hy => rowBlocks_length_of_full g y (mem_fullList g g.height y hy))]
  exact dvd_mul_left g.width (g.fullList g.height).length

/-- `int(a / b)` on the exact rational quotient of naturals is natural
division. -/
theorem floor_natCast_div (a b : Nat) :
    (Int.floor ((a : ℚ) / (b : ℚ))).toNat = a / b := by
  rw [Int.floor_toNat, Nat.floor_div_nat, Nat.floor_natCast]

/-- `int(a * (a / b))` on exact rationals is `a * (a / b)` with natural
division, whenever `b` divides `a`. -/
theorem floor_mul_div (a b : Nat) (hdvd : b ∣ a) :
    (Int.floor ((a : ℚ) * ((a : ℚ) / (b : ℚ)))).toNat = a * (a / b) := by
  rcases hdvd with ⟨c, rfl⟩
  by_cases hb : b = 0
  · subst hb
    simp
  · have hbq : (b : ℚ) ≠ 0 := by exact_mod_cast hb
    have hq : ((b * c : Nat) : ℚ) / (b : ℚ) = (c : ℚ) := by
      push_cast
      rw [mul_comm, mul_div_assoc, div_self hbq, mul_one]
    have hnat : b * c / b = c := Nat.mul_div_cancel_left c (Nat.pos_of_ne_zero hb)
    rw [hq, hnat]
    have hm : ((b * c : Nat) : ℚ) * (c : ℚ) = ((b * c * c : Nat) : ℚ) := by
      push_cast
      ring
    rw [hm, Int.floor_natCast]
    omega

/-- The landing branch of the idealized `step`: with the gravity threshold
reached, an active piece whose downward move fails is merged, rows are
cleared, and the counters are updated; `step` returns success. -/
theorem step_landing (t : MasterTetris) (n : Nat) (dt : ℚ) (p : Polyomino)
    (hp : t.current_piece = some p)
    (hth : 1 / 2 / (t.level : ℚ) ≤ t.delta + dt)
    (hdown : (p.move_delta (some t.grid) (0, 1)).1 = false) :
    t.step n dt = (true,
      { t with
        delta := 0
        grid := ((t.grid.add_polyomino p).clear_rows).1
        current_piece := none
        lines := (t.lines + (Int.floor
          (((((t.grid.add_polyomino p).clear_rows).2.length : ℚ)) /
            ((((t.grid.add_polyomino p).clear_rows).1.width : ℚ)))).toNat)
        score := (t.score + (Int.floor
          (((((t.grid.add_polyomino p).clear_rows).2.length : ℚ)) *
            (((((t.grid.add_polyomino p).clear_rows).2.length : ℚ)) /
              ((((t.grid.add_polyomino p).clear_rows).1.width : ℚ))))).toNat)
        level := ((Int.floor (((t.lines + (Int.floor
          (((((t.grid.add_polyomino p).clear_rows).2.length : ℚ)) /
            ((((t.grid.add_polyomino p).clear_rows).1.width : ℚ)))).toNat : ℚ))
              / 10)).toNat + 1) }) := by
  rw [MasterTetris.step]
  simp only [hp, MasterTetris.down, hdown]
  rw [if_pos (by simpa using hth)]
  simp [hdown]

/-- In the event-free idealization, the counter update at a landing that
removes `N` blocks from a grid of width `W`: `lines` grows by `N / W`,
`score` grows by `N * (N / W)` (integer division both times), and `level`
becomes `floor(lines / 10) + 1` of the updated line count.  Cited as
intent evidence for the code-bug finding on the staged source, where the
landing raises before any counter update. -/
theorem ideal_counter_update (t : MasterTetris) (n : Nat) (dt : ℚ)
    (p : Polyomino)
    (hp : t.current_piece = some p)
    (hth : 1 / 2 / (t.level : ℚ) ≤ t.delta + dt)
    (hdown : (p.move_delta (some t.grid) (0, 1)).1 = false) :
    (t.step n dt).1 = true ∧
    (t.step n dt).2.lines = t.lines +
      ((t.grid.add_polyomino p).clear_rows).2.length / t.grid.width ∧
    (t.step n dt).2.score = t.score +
      ((t.grid.add_polyomino p).clear_rows).2.length *
        (((t.grid.add_polyomino p).clear_rows).2.length / t.grid.width) ∧
    (t.step n dt).2.level = (t.lines +
      ((t.grid.add_polyomino p).clear_rows).2.length / t.grid.width) / 10
        + 1 := by
  have hW : ((t.grid.add_polyomino p).clear_rows).1.width = t.grid.width := by
    rw [clear_rows_width, add_polyomino_width]
  have hdvd : t.grid.width ∣ ((t.grid.add_polyomino p).clear_rows).2.length := by
    rw [← add_polyomino_width t.grid p]
    exact clear_rows_length_dvd (t.grid.add_polyomino p)
  rw [step_landing t n dt p hp hth hdown]
  refine ⟨rfl, ?_, ?_, ?_⟩
  · simp only [hW, floor_natCast_div]
  · simp only [hW, floor_mul_div _ _ hdvd]
  · simp only [hW, floor_natCast_div]
    have h10 : (10 : ℚ) = ((10 : Nat) : ℚ) := by norm_num
    rw [← Nat.cast_add, h10, floor_natCast_div]

/-- Concrete evaluation of `ideal_counter_update`: landing `pLand` into
`gTwoRows` (width 10) completes two rows — 20 removed blocks give
`lines += 2`, `score += 40`, level stays `⌊2/10⌋ + 1 = 1`. -/
theorem ideal_counter_update_example :
    (tLanding.step 0 1).1 = true ∧
    (tLanding.step 0 1).2.lines = 2 ∧
    (tLanding.step 0 1).2.score = 40 ∧
    (tLanding.step 0 1).2.level = 1 := by
  have h := ideal_counter_update tLanding 0 1 pLand rfl
    (by norm_num [tLanding]) (by decide)
  refine ⟨h.1, ?_, ?_, ?_⟩
  · rw [h.2.1]
    decide
  · rw [h.2.2.1]
    decide
  · rw [h.2.2.2]
    decide

/-- The spawn-blocked branch of the idealized `step`: with the threshold
reached and no active piece, a freshly spawned piece whose first downward
move fails makes `step` return failure, the grid untouched. -/
theorem step_spawn_blocked (t : MasterTetris) (n : Nat) (dt : ℚ)
    (hp : t.current_piece = none)
    (hth : 1 / 2 / (t.level : ℚ) ≤ t.delta + dt)
    (hdown : ((t.get_new_block n (((t.grid.width / 2 : Nat) : Int), 0)).move_delta
      (some t.grid) (0, 1)).1 = false) :
    t.step n dt = (false,
      { t with
        delta := 0
        current_piece :=
          (some (t.get_new_block n (((t.grid.width / 2 : Nat) : Int), 0))) }) := by
  rw [MasterTetris.step]
  simp only [hp, MasterTetris.down]
  rw [if_pos (by simpa using hth)]
  have hdown2 : ((({ grid := t.grid
                     current_piece := none
                     delta := 0
                     score := t.score
                     level := t.level
                     lines := t.lines
                     possible_blocks := t.possible_blocks } :
      MasterTetris).get_new_block n
        (((t.grid.width / 2 : Nat) : Int), 0)).move_delta
      (some t.grid) (0, 1)).1 = false := hdown
  rw [hdown2]
  simp [MasterTetris.get_new_block]

/-- In the event-free idealization, a gravity tick that spawns a piece
unable to take its first downward move makes `step` return failure (the
loss condition) with the grid's cell contents untouched — nothing merged,
no row cleared.  Cited as intent evidence for the code-bug finding on the
staged source, where the spawn raises before the move is attempted. -/
theorem ideal_spawn_blocked_loss (t : MasterTetris) (n : Nat) (dt : ℚ)
    (hp : t.current_piece = none)
    (hth : 1 / 2 / (t.level : ℚ) ≤ t.delta + dt)
    (hdown : ((t.get_new_block n (((t.grid.width / 2 : Nat) : Int), 0)).move_delta
      (some t.grid) (0, 1)).1 = false) :
    (t.step n dt).1 = false ∧ (t.step n dt).2.grid = t.grid := by
  rw [step_spawn_blocked t n dt hp hth hdown]
  exact ⟨rfl, rfl⟩

/-- Concrete evaluation of `ideal_spawn_blocked_loss`: in `tSpawnBlocked`
the spawned single-block piece at column 2 cannot move down (cell (2,1) is
occupied), so a one-second idealized step ends the session without
touching the grid. -/
theorem ideal_spawn_blocked_loss_example :
    (tSpawnBlocked.step 0 1).1 = false ∧
    (tSpawnBlocked.step 0 1).2.grid = tSpawnBlocked.grid :=
  ideal_spawn_blocked_loss tSpawnBlocked 0 1 rfl
    (by norm_num [tSpawnBlocked]) (by decide)

/-- Concrete evaluation of `ideal_clear_rows`: on `gRowFull` (width 2,
full bottom row 2, a lone block at (0,1)) the full row holds 2 = width
blocks, the survivor at (0,1) ends at (0,2) with its offset bumped by 1,
and the top row is empty. -/
theorem ideal_clear_rows_example :
    (gRowFull.rowBlocks 2).length = gRowFull.width ∧
    (gRowFull.clear_rows).1.cells 0
        ((1 + gRowFull.clearedBelow gRowFull.height 1 : Nat) : Int) =
      (gRowFull.cells 0 1).map (Block.bumpN (gRowFull.clearedBelow gRowFull.height 1)) ∧
    (gRowFull.clear_rows).1.cells 0 0 = none :=
  ⟨(ideal_clear_rows gRowFull).2.1 2 (by decide),
   (ideal_clear_rows gRowFull).2.2.1 1 (by decide) (by decide) 0 (by decide)
     (by decide),
   (ideal_clear_rows gRowFull).2.2.2 0 (by decide) 0 (by decide) (by decide)⟩

/-! ### The staged source's event crashes, evaluated at the failing inputs -/

/-- The sub-threshold branch is where the staged source and the
idealization coincide: an emission-free success that only accumulates
time. -/
theorem stepPy_subthreshold (t : MasterTetris) (n : Nat) (dt : ℚ)
    (h : t.delta + dt < 1 / 2 / (t.level : ℚ)) :
    t.stepPy n dt = (PyRet.ret true, { t with delta := t.delta + dt }) := by
  rw [MasterTetris.stepPy]
  simp only []
  rw [if_neg (by simpa using not_le.mpr h)]

/-- C1 (code bug): on the staged source the success paths of all three
piece operations abort.  `pTwo`'s rotations over the empty grid pass
validation, commit only the head block's candidate offset, and raise — a
partial commit, neither atomic nor a success return; `pSide`'s clear move
commits the piece offset and raises.  Only the blocked path (last
conjunct) returns, with `False` and the piece untouched, as the claim's
failure half says. -/
theorem c1_success_path_crashes :
    pTwo.rotate_leftPy (some gEmpty) = (PyRet.exn, { pTwo with blocks :=
      [{ lpos := (0, 1), color := 1 }, { lpos := (2, 0), color := 1 }] }) ∧
    pTwo.rotate_rightPy (some gEmpty) = (PyRet.exn, { pTwo with blocks :=
      [{ lpos := (0, -1), color := 1 }, { lpos := (2, 0), color := 1 }] }) ∧
    pSide.move_deltaPy (some gBlocked) (0, -1) =
      (PyRet.exn, { pSide with lpos := (1, 0) }) ∧
    pSide.rotate_leftPy (some gBlocked) = (PyRet.ret false, pSide) := by
  decide

/-- C2 (code bug): clearing the full bottom row of `gRowFull` on the
staged source raises at the first moved block's offset bump: no removed
list is ever returned, the bumped block is aliased into the cells of rows
1 and 2 alike, and the other block of the "cleared" row is still in
place — a partially shifted grid, not the claimed clean removal. -/
theorem c2_clear_crashes :
    (gRowFull.clear_rowsPy).1 = PyRet.exn ∧
    (gRowFull.clear_rowsPy).2.cells 0 2 = some { lpos := (0, 2), color := 5 } ∧
    (gRowFull.clear_rowsPy).2.cells 0 1 = some { lpos := (0, 2), color := 5 } ∧
    (gRowFull.clear_rowsPy).2.cells 1 2 = some { lpos := (1, 2), color := 7 } := by
  decide

/-- Every spawn tick of the staged source raises in the `current_piece`
property setter, the spawned piece committed to the backing field and the
grid untouched. -/
theorem stepPy_spawn_crash (t : MasterTetris) (n : Nat) (dt : ℚ)
    (hp : t.current_piece = none)
    (hth : 1 / 2 / (t.level : ℚ) ≤ t.delta + dt) :
    t.stepPy n dt = (PyRet.exn,
      { t with delta := 0, current_piece :=
          (some (t.get_new_block n (((t.grid.width / 2 : Nat) : Int), 0))) }) := by
  rw [MasterTetris.stepPy]
  simp only [hp]
  rw [if_pos (by simpa using hth)]
  rfl

/-- Every landing tick of the staged source (existing piece, blocked
descent, at least one block) raises inside `add_polyomino`, before the
merge, the row clear and every counter update. -/
theorem stepPy_landing_crash (t : MasterTetris) (n : Nat) (dt : ℚ)
    (p : Polyomino) (b : Block) (bs : List Block)
    (hp : t.current_piece = some p)
    (hth : 1 / 2 / (t.level : ℚ) ≤ t.delta + dt)
    (hdown : p.move_deltaPy (some t.grid) (0, 1) = (PyRet.ret false, p))
    (hblocks : p.blocks = b :: bs) :
    t.stepPy n dt = (PyRet.exn,
      { t with delta := 0, current_piece := some p }) := by
  rw [MasterTetris.stepPy]
  simp only [hp, MasterTetris.downPy]
  rw [if_pos (by simpa using hth)]
  simp [hdown, hblocks, Grid.add_polyominoPy]

/-- C3 (code bug): the landing tick on `tLanding` (blocked descent, two
rows completed by the merge) raises inside `add_polyomino` before the
merge, the row clear and every counter update: `step` never returns and
`lines`, `score`, `level` keep their old values instead of receiving the
claimed updates. -/
theorem c3_landing_crashes :
    (tLanding.stepPy 0 1).1 = PyRet.exn ∧
    (tLanding.stepPy 0 1).2.lines = tLanding.lines ∧
    (tLanding.stepPy 0 1).2.score = tLanding.score ∧
    (tLanding.stepPy 0 1).2.level = tLanding.level := by
  have h := stepPy_landing_crash tLanding 0 1 pLand
    { lpos := (0, 0), color := 4 } [{ lpos := (0, 1), color := 4 }] rfl
    (by norm_num [tLanding]) (by decide) rfl
  rw [h]
  exact ⟨rfl, rfl, rfl, rfl⟩

/-- C4 (code bug): the spawn tick on `tSpawnBlocked` raises in the
`current_piece` property setter right after committing the spawned piece
to the backing field, before the first downward move is even attempted:
the grid is indeed untouched, but `step` raises instead of returning the
claimed failure. -/
theorem c4_spawn_crashes :
    (tSpawnBlocked.stepPy 0 1).1 = PyRet.exn ∧
    (tSpawnBlocked.stepPy 0 1).2.grid = tSpawnBlocked.grid ∧
    (tSpawnBlocked.stepPy 0 1).2.current_piece =
      some (tSpawnBlocked.get_new_block 0 (2, 0)) := by
  have h := stepPy_spawn_crash tSpawnBlocked 0 1 rfl
    (by norm_num [tSpawnBlocked])
  rw [h]
  exact ⟨rfl, rfl, rfl⟩

/-- C7 (code bug): on the staged source `rotate_left` never returns
success — on any piece it either raises (clear path) or returns `False`
(blocked path) — so the claimed left-then-right restoration can never
execute.  Concretely, the unobstructed `pRot` raises on its left rotation
(its head block's committed candidate equals its old offset, so the piece
state happens to be unchanged at the escape). -/
theorem c7_round_trip_unreachable :
    pRot.rotate_leftPy (some gEmpty) = (PyRet.exn, pRot) ∧
    (∀ (p : Polyomino) (parent : Option Grid),
      (p.rotate_leftPy parent).1 = PyRet.exn ∨
      (p.rotate_leftPy parent).1 = PyRet.ret false) := by
  refine ⟨by decide, fun p parent => ?_⟩
  rw [Polyomino.rotate_leftPy]
  split
  · cases p.blocks with
    | nil => left; rfl
    | cons b rest => left; rfl
  · right; rfl

end Tetris
